import Mathlib

/-!
Verification of the NaviPlanner planning core
(`modules/planning/planner/navi/navi_planner.cc`).

The C++ source is shallowly embedded over `ℚ` (the source's `double`
arithmetic, modelled exactly; none of the properties checked here depend on
rounding).  Each `for`/`while` loop of the source is translated to a
fuel-based recursion whose fuel is chosen large enough to cover every
iteration the C++ loop performs; characterization lemmas relate the loops to
closed-form lists of sample points.  External collaborators (decision tasks,
reference-line geometry, the Cartesian-to-Frenet conversion, gflags
configuration values) are parameters of the embedded functions.
-/

namespace NaviPlanner

/-- One sample of a longitudinal speed profile: `common::SpeedPoint`
    with fields `s, t, v, a, da`. -/
structure SpeedPoint where
  s : ℚ
  t : ℚ
  v : ℚ
  a : ℚ
  da : ℚ
deriving DecidableEq

/-- One sample of a discretized path: `common::PathPoint` as produced by
    `common::util::MakePathPoint(x, y, z, theta, kappa, dkappa, ddkappa)`
    followed by `set_s`. -/
structure PathPoint where
  x : ℚ
  y : ℚ
  z : ℚ
  theta : ℚ
  kappa : ℚ
  dkappa : ℚ
  ddkappa : ℚ
  s : ℚ
deriving DecidableEq

/-- A point of a reference line as returned by
    `ReferenceLine::GetReferencePoint(s)` (external collaborator). -/
structure ReferencePoint where
  x : ℚ
  y : ℚ
  heading : ℚ
  kappa : ℚ
  dkappa : ℚ
deriving DecidableEq

/-- `common::Status`: either OK or an error carrying a message. -/
inductive Status where
  | ok : Status
  | error : String → Status
deriving DecidableEq

/-- `Status::ok()`. -/
def Status.isOk : Status → Bool
  | Status.ok => true
  | Status.error _ => false

/- Constants of the anonymous namespace of `navi_planner.cc` (the source
   spells "Clost"). -/

def kPathOptimizationFallbackClost : ℚ := 20000

def kSpeedOptimizationFallbackClost : ℚ := 20000

def kStraightForwardLineCost : ℚ := 10

/-- `kRefrenceLineStaticObsCost` (sic), local constant of
    `PlanOnReferenceLine`. -/
def kRefrenceLineStaticObsCost : ℚ := 1000

/-- `kFixedJerk` of `GenerateStopProfile`. -/
def kFixedJerk : ℚ := -1

/-! ### Rational floor / ceiling helpers

Mathlib's `⌊⌋`/`⌈⌉` on `ℚ` do not evaluate well inside the kernel, so the
fuel bounds of the embedded loops use `Rat.floor` directly; the lemmas below
relate them to `Int.floor`/`Int.ceil` for reasoning. -/

def ratFloorNat (x : ℚ) : ℕ := (Rat.floor x).toNat

def ratCeilNat (x : ℚ) : ℕ := (-(Rat.floor (-x))).toNat

lemma ratFloor_eq (x : ℚ) : Rat.floor x = ⌊x⌋ :=
  (Rat.floor_def' x).trans Rat.floor_def.symm

lemma ratFloorNat_eq (x : ℚ) : ratFloorNat x = (⌊x⌋).toNat := by
  rw [ratFloorNat, ratFloor_eq]

lemma ratCeilNat_eq (x : ℚ) : ratCeilNat x = (⌈x⌉).toNat := by
  rw [ratCeilNat, ratFloor_eq, Int.floor_neg, neg_neg]

/-! ### Loop combinators

The C++ loops `for (double x = x0; cond(x); x += step)` are embedded as
fuel-based recursions; the fuel supplied at every use site strictly exceeds
the number of iterations the C++ loop performs, so the `fuel = 0` base case
is never reached. -/

/-- A loop that returns the first `some` produced by `body` (`return` from
    inside the loop); `none` mirrors falling off the end of the loop. -/
def whileFindC (cond : ℚ → Bool) (body : ℚ → Option α) (step : ℚ) :
    ℕ → ℚ → Option α
  | 0, _ => none
  | fuel+1, x =>
    if cond x then
      match body x with
      | some r => some r
      | none => whileFindC cond body step fuel (x + step)
    else none

/-- A loop that pushes `body x` for every iterate (`push_back`). -/
def whileMapC (cond : ℚ → Bool) (body : ℚ → α) (step : ℚ) :
    ℕ → ℚ → List α
  | 0, _ => []
  | fuel+1, x =>
    if cond x then body x :: whileMapC cond body step fuel (x + step)
    else []

/-- A loop that returns `false` as soon as `bad` holds at an iterate and
    `true` if the loop runs to completion. -/
def whileAllC (cond bad : ℚ → Bool) (step : ℚ) : ℕ → ℚ → Bool
  | 0, _ => true
  | fuel+1, x =>
    if cond x then
      if bad x then false else whileAllC cond bad step fuel (x + step)
    else true

/-- The arithmetic progression `x0, x0+step, …` of length `n`: the iterates
    of a loop that runs exactly `n` times. -/
def ticks (x0 step : ℚ) (n : ℕ) : List ℚ :=
  (List.range n).map (fun k : ℕ => x0 + step * (k : ℚ))

lemma ticks_zero (x0 step : ℚ) : ticks x0 step 0 = [] := rfl

lemma ticks_succ (x0 step : ℚ) (n : ℕ) :
    ticks x0 step (n + 1) = x0 :: ticks (x0 + step) step n := by
  unfold ticks
  rw [List.range_succ_eq_map, List.map_cons, List.map_map]
  refine congrArg₂ _ (by push_cast; ring) (List.map_congr_left ?_)
  intro k _
  simp only [Function.comp_apply]
  push_cast
  ring

lemma whileFindC_eq_findSome (cond : ℚ → Bool) (body : ℚ → Option α)
    (step : ℚ) :
    ∀ (n fuel : ℕ) (x : ℚ), n ≤ fuel →
      (∀ k : ℕ, k < n → cond (x + step * k) = true) →
      cond (x + step * n) = false →
      whileFindC cond body step fuel x = (ticks x step n).findSome? body := by
  intro n
  induction n with
  | zero =>
    intro fuel x _ _ hstop
    have hx : cond x = false := by simpa using hstop
    cases fuel with
    | zero => simp [whileFindC, ticks_zero]
    | succ f => simp [whileFindC, hx, ticks_zero]
  | succ m ih =>
    intro fuel x hfuel hrun hstop
    obtain ⟨f, rfl⟩ := Nat.exists_eq_add_of_le hfuel
    have hx : cond x = true := by simpa using hrun 0 (Nat.succ_pos m)
    rw [show m + 1 + f = (m + f) + 1 by omega]
    rw [whileFindC, hx, if_pos rfl, ticks_succ, List.findSome?_cons]
    cases hb : body x with
    | some r => rfl
    | none =>
      exact ih (m + f) (x + step) (Nat.le_add_right m f)
        (fun k hk => by
          have := hrun (k + 1) (by omega)
          push_cast at this ⊢
          convert this using 2
          ring)
        (by
          have := hstop
          push_cast at this ⊢
          convert this using 2
          ring)

lemma whileMapC_eq_map (cond : ℚ → Bool) (body : ℚ → α) (step : ℚ) :
    ∀ (n fuel : ℕ) (x : ℚ), n ≤ fuel →
      (∀ k : ℕ, k < n → cond (x + step * k) = true) →
      cond (x + step * n) = false →
      whileMapC cond body step fuel x = (ticks x step n).map body := by
  intro n
  induction n with
  | zero =>
    intro fuel x _ _ hstop
    have hx : cond x = false := by simpa using hstop
    cases fuel with
    | zero => simp [whileMapC, ticks_zero]
    | succ f => simp [whileMapC, hx, ticks_zero]
  | succ m ih =>
    intro fuel x hfuel hrun hstop
    obtain ⟨f, rfl⟩ := Nat.exists_eq_add_of_le hfuel
    have hx : cond x = true := by simpa using hrun 0 (Nat.succ_pos m)
    rw [show m + 1 + f = (m + f) + 1 by omega]
    rw [whileMapC, hx, if_pos rfl, ticks_succ, List.map_cons]
    refine congrArg _ ?_
    exact ih (m + f) (x + step) (Nat.le_add_right m f)
      (fun k hk => by
        have := hrun (k + 1) (by omega)
        push_cast at this ⊢
        convert this using 2
        ring)
      (by
        have := hstop
        push_cast at this ⊢
        convert this using 2
        ring)

lemma whileAllC_eq_all (cond bad : ℚ → Bool) (step : ℚ) :
    ∀ (n fuel : ℕ) (x : ℚ), n ≤ fuel →
      (∀ k : ℕ, k < n → cond (x + step * k) = true) →
      cond (x + step * n) = false →
      whileAllC cond bad step fuel x = (ticks x step n).all (fun y => !bad y) := by
  intro n
  induction n with
  | zero =>
    intro fuel x _ _ hstop
    have hx : cond x = false := by simpa using hstop
    cases fuel with
    | zero => simp [whileAllC, ticks_zero]
    | succ f => simp [whileAllC, hx, ticks_zero]
  | succ m ih =>
    intro fuel x hfuel hrun hstop
    obtain ⟨f, rfl⟩ := Nat.exists_eq_add_of_le hfuel
    have hx : cond x = true := by simpa using hrun 0 (Nat.succ_pos m)
    rw [show m + 1 + f = (m + f) + 1 by omega]
    rw [whileAllC, hx, if_pos rfl, ticks_succ, List.all_cons]
    cases hb : bad x with
    | true => simp [hb]
    | false =>
      simp only [hb, if_neg Bool.false_ne_true, Bool.not_false, Bool.true_and]
      exact ih (m + f) (x + step) (Nat.le_add_right m f)
        (fun k hk => by
          have := hrun (k + 1) (by omega)
          push_cast at this ⊢
          convert this using 2
          ring)
        (by
          have := hstop
          push_cast at this ⊢
          convert this using 2
          ring)

/-! ### The quintic boundary-value curve -/

/-- `QuinticPolynomialCurve1d`: a degree-5 polynomial `c0 + c1 t + … + c5 t^5`
    together with its parameter length. -/
structure QuinticPolynomialCurve1d where
  c0 : ℚ
  c1 : ℚ
  c2 : ℚ
  c3 : ℚ
  c4 : ℚ
  c5 : ℚ
  param : ℚ
deriving DecidableEq

/-- Modelled from the spec: the Curve Evaluator (spec section 4.6) lives outside
    the file under verification (`QuinticPolynomialCurve1d` of the math
    library), "a quintic polynomial uniquely solving six boundary constraints
    (initial position/velocity/acceleration, final position/velocity/
    acceleration, fixed duration) … via closed-form coefficient solving".
    `mkQuintic x0 dx0 ddx0 x1 dx1 ddx1 p` is the unique quintic with value,
    first and second derivative `(x0, dx0, ddx0)` at time `0` and
    `(x1, dx1, ddx1)` at time `p` (see the boundary lemmas below). -/
def mkQuintic (x0 dx0 ddx0 x1 dx1 ddx1 p : ℚ) : QuinticPolynomialCurve1d :=
  let dpos := x1 - x0 - dx0 * p - 1/2 * ddx0 * p^2
  let dvel := (dx1 - dx0 - ddx0 * p) * p
  let dacc := (ddx1 - ddx0) * p^2
  { c0 := x0
    c1 := dx0
    c2 := ddx0 / 2
    c3 := (10 * dpos - 4 * dvel + 1/2 * dacc) / p^3
    c4 := (-15 * dpos + 7 * dvel - dacc) / p^4
    c5 := (6 * dpos - 3 * dvel + 1/2 * dacc) / p^5
    param := p }

/-- Modelled from the spec: `Evaluate(order, t)` "exposes evaluation of the
    0th–3rd derivatives (position, velocity, acceleration, jerk) at any
    time". -/
def QuinticPolynomialCurve1d.Evaluate (c : QuinticPolynomialCurve1d)
    (order : ℕ) (t : ℚ) : ℚ :=
  match order with
  | 0 => ((((c.c5 * t + c.c4) * t + c.c3) * t + c.c2) * t + c.c1) * t + c.c0
  | 1 => (((5 * c.c5 * t + 4 * c.c4) * t + 3 * c.c3) * t + 2 * c.c2) * t + c.c1
  | 2 => ((20 * c.c5 * t + 12 * c.c4) * t + 6 * c.c3) * t + 2 * c.c2
  | 3 => (60 * c.c5 * t + 24 * c.c4) * t + 6 * c.c3
  | _ => 0

/-- `ParamLength()`. -/
def QuinticPolynomialCurve1d.ParamLength (c : QuinticPolynomialCurve1d) : ℚ :=
  c.param

/-- Sanity check for the spec-modelled curve: the three boundary constraints
    at time `0` hold by construction. -/
lemma mkQuintic_boundary_start (x0 dx0 ddx0 x1 dx1 ddx1 p : ℚ) :
    (mkQuintic x0 dx0 ddx0 x1 dx1 ddx1 p).Evaluate 0 0 = x0
    ∧ (mkQuintic x0 dx0 ddx0 x1 dx1 ddx1 p).Evaluate 1 0 = dx0
    ∧ (mkQuintic x0 dx0 ddx0 x1 dx1 ddx1 p).Evaluate 2 0 = ddx0 := by
  refine ⟨?_, ?_, ?_⟩ <;> simp [mkQuintic, QuinticPolynomialCurve1d.Evaluate] <;> ring

/-- Sanity check for the spec-modelled curve: the three boundary constraints
    at time `p` hold whenever the duration is nonzero, so `mkQuintic` is the
    quintic the spec describes. -/
lemma mkQuintic_boundary_end (x0 dx0 ddx0 x1 dx1 ddx1 p : ℚ) (hp : p ≠ 0) :
    (mkQuintic x0 dx0 ddx0 x1 dx1 ddx1 p).Evaluate 0 p = x1
    ∧ (mkQuintic x0 dx0 ddx0 x1 dx1 ddx1 p).Evaluate 1 p = dx1
    ∧ (mkQuintic x0 dx0 ddx0 x1 dx1 ddx1 p).Evaluate 2 p = ddx1 := by
  refine ⟨?_, ?_, ?_⟩ <;>
    simp only [mkQuintic, QuinticPolynomialCurve1d.Evaluate] <;>
    field_simp <;> ring

/-! ### `NaviPlanner::IsValidProfile` (navi_planner.cc:464-475)

```
for (double evaluate_t = 0.1; evaluate_t <= curve.ParamLength();
     evaluate_t += 0.2) {
  v = curve.Evaluate(1, evaluate_t); a = curve.Evaluate(2, evaluate_t);
  if (v < -kEpsilon || a < -5.0) return false;
}
return true;
```
-/

def IsValidProfile (curve : QuinticPolynomialCurve1d) : Bool :=
  whileAllC (fun evaluate_t => decide (evaluate_t ≤ curve.ParamLength))
    (fun evaluate_t =>
      decide (curve.Evaluate 1 evaluate_t < -(1/1000))
        || decide (curve.Evaluate 2 evaluate_t < -5))
    (1/5) (ratCeilNat (5 * curve.ParamLength) + 1) (1/10)

/-! ### `NaviPlanner::GenerateStopProfileFromPolynomial` (navi_planner.cc:438-462)

```
for (double t = 2.0; t <= kMaxT; t += 0.5) {
  for (double s = 0.0; s < 50.0; s += 1.0) {
    QuinticPolynomialCurve1d curve(0.0, init_speed, init_acc, s, 0.0, 0.0, t);
    if (!IsValidProfile(curve)) continue;
    for (double curve_t = 0.0; curve_t <= t; curve_t += kUnitT) {
      speed_data.AppendSpeedPoint(curve.Evaluate(0..3, curve_t)…);
    }
    return speed_data;
  }
}
return SpeedData();
```
-/

/-- The innermost emission loop: sample the accepted curve at `0.02 s`. -/
def sampleStopCurve (curve : QuinticPolynomialCurve1d) : List SpeedPoint :=
  whileMapC (fun curve_t => decide (curve_t ≤ curve.ParamLength))
    (fun curve_t =>
      { s := curve.Evaluate 0 curve_t
        t := curve_t
        v := curve.Evaluate 1 curve_t
        a := curve.Evaluate 2 curve_t
        da := curve.Evaluate 3 curve_t })
    (1/50) (ratCeilNat (50 * curve.ParamLength) + 1) 0

/-- The inner `s` loop: `continue` on an invalid curve, `return` the sampled
    profile on the first valid one.  The loop runs at most 50 times, so fuel
    51 covers it. -/
def polyInner (init_speed init_acc t : ℚ) : Option (List SpeedPoint) :=
  whileFindC (fun s => decide (s < 50))
    (fun s =>
      let curve := mkQuintic 0 init_speed init_acc s 0 0 t
      if IsValidProfile curve then some (sampleStopCurve curve) else none)
    1 51 0

/-- The outer `t` loop (`kMaxT = 4.0`): five iterations, fuel 6 covers it. -/
def polyOuter (init_speed init_acc : ℚ) : Option (List SpeedPoint) :=
  whileFindC (fun t => decide (t ≤ 4))
    (fun t => polyInner init_speed init_acc t)
    (1/2) 6 2

def GenerateStopProfileFromPolynomial (init_speed init_acc : ℚ) :
    List SpeedPoint :=
  (polyOuter init_speed init_acc).getD []

/-! ### `NaviPlanner::GenerateStopProfile` (navi_planner.cc:393-436)

Closed-form jerk-limited deceleration.  `FLAGS_slowdown_profile_deceleration`
is configuration, taken as the parameter `slowdownDec`.  The loop
`for (double t = 0.0; t < max_t; t += unit_t)` with `max_t = 3.0`,
`unit_t = 0.02` runs exactly 150 times; fuel 151 covers it.  `pre_s` is the
loop-carried state. -/

def stopProfileLoop (slowdownDec init_speed first_point_acc t_mid s_mid v_mid : ℚ) :
    ℕ → ℚ → ℚ → List SpeedPoint
  | 0, _, _ => []
  | fuel+1, t, pre_s =>
    if t < 3 then
      if t ≤ t_mid then
        let s := max pre_s
          (init_speed * t + 1/2 * first_point_acc * t * t
            + 1/6 * kFixedJerk * t * t * t)
        let v := max 0
          (init_speed + first_point_acc * t + 1/2 * kFixedJerk * t * t)
        let a := first_point_acc + kFixedJerk * t
        { s := s, t := t, v := v, a := a, da := 0 } ::
          stopProfileLoop slowdownDec init_speed first_point_acc t_mid s_mid v_mid
            fuel (t + 1/50) s
      else
        let s := max pre_s
          (s_mid + v_mid * (t - t_mid)
            + 1/2 * slowdownDec * (t - t_mid) * (t - t_mid))
        let v := max 0 (v_mid + (t - t_mid) * slowdownDec)
        { s := s, t := t, v := v, a := slowdownDec, da := 0 } ::
          stopProfileLoop slowdownDec init_speed first_point_acc t_mid s_mid v_mid
            fuel (t + 1/50) s
    else []

def GenerateStopProfile (slowdownDec init_speed init_acc : ℚ) : List SpeedPoint :=
  let first_point_acc := min 0 init_acc
  let t_mid := (slowdownDec - first_point_acc) / kFixedJerk
  let s_mid := init_speed * t_mid + 1/2 * first_point_acc * t_mid * t_mid
    + 1/6 * kFixedJerk * t_mid * t_mid * t_mid
  let v_mid := init_speed + first_point_acc * t_mid
    + 1/2 * kFixedJerk * t_mid * t_mid
  stopProfileLoop slowdownDec init_speed first_point_acc t_mid s_mid v_mid
    151 0 0

/-- `NaviPlanner::GenerateFallbackSpeedProfile` (navi_planner.cc:380-391):
    Strategy A first, Strategy B only when A came back empty. -/
def GenerateFallbackSpeedProfile (slowdownDec init_speed init_acc : ℚ) :
    List SpeedPoint :=
  let speed_data := GenerateStopProfileFromPolynomial init_speed init_acc
  if speed_data.isEmpty then GenerateStopProfile slowdownDec init_speed init_acc
  else speed_data

/-! ### `NaviPlanner::GenerateSpeedHotStart` (navi_planner.cc:330-349)

`FLAGS_planning_upper_speed_limit`, `FLAGS_trajectory_time_length` and
`FLAGS_trajectory_time_min_interval` are configuration, taken as parameters
`upperSpeedLimit`, `timeLength`, `minInterval`. -/

/-- Modelled from the spec: `common::math::Clamp` lives outside the file under
    verification; the spec says the seed velocity is "the vehicle's current
    velocity clamped to [5.0, configured max speed]". -/
def Clamp (value bound1 bound2 : ℚ) : ℚ := min (max value bound1) bound2

/-- The loop of `GenerateSpeedHotStart`; `t` and `s` are the loop-carried
    state (`s` accumulates `v * Δt`). -/
def hotStartLoop (timeLength v minInterval : ℚ) : ℕ → ℚ → ℚ → List SpeedPoint
  | 0, _, _ => []
  | fuel+1, t, s =>
    if t < timeLength then
      { s := s, t := t, v := v, a := 0, da := 0 } ::
        hotStartLoop timeLength v minInterval fuel (t + minInterval)
          (s + v * minInterval)
    else []

def GenerateSpeedHotStart (init_v upperSpeedLimit timeLength minInterval : ℚ) :
    List SpeedPoint :=
  let v := Clamp init_v 5 upperSpeedLimit
  hotStartLoop timeLength v minInterval
    (ratCeilNat (timeLength / minInterval) + 1) 0 0

/-! ### `NaviPlanner::GenerateInitSpeedProfile` (navi_planner.cc:265-327)

External collaborators: `FrameHistory` (the previous cycle), the previous
reference line's `XYToSL` conversion and the `IsStartFrom` relation.  The
C++ `XYToSL(xy, &sl)` writes its result into an out-parameter and returns a
success flag; on failure the source only logs (`AERROR`) and keeps going
with whatever the out-parameter holds, so the conversion is modelled as a
function returning the pair (success flag, resulting `s`), and the flag is
— exactly as in the source — never consulted. -/

structure LastRefLineInfo where
  speedVector : List SpeedPoint
deriving DecidableEq

structure LastFrame where
  driveRefLineInfo : Option LastRefLineInfo
  lastInitXY : ℚ × ℚ
deriving DecidableEq

/-- The re-basing loop over `last_speed_vector`: skip samples with
    `s < s_diff`; the first kept sample fixes the `(start_s, start_time)`
    origin (`is_updated_start`); every kept sample is re-based by the
    origin. -/
def initProfileLoop (s_diff : ℚ) :
    List SpeedPoint → Bool → ℚ → ℚ → List SpeedPoint
  | [], _, _, _ => []
  | sp :: rest, is_updated_start, start_s, start_t =>
    if sp.s < s_diff then
      initProfileLoop s_diff rest is_updated_start start_s start_t
    else
      let start_s₁ := if is_updated_start then start_s else sp.s
      let start_t₁ := if is_updated_start then start_t else sp.t
      { s := sp.s - start_s₁, t := sp.t - start_t₁, v := sp.v, a := sp.a,
        da := sp.da } ::
        initProfileLoop s_diff rest true start_s₁ start_t₁

def GenerateInitSpeedProfile (lastFrame : Option LastFrame)
    (isStartFrom : Bool) (xyToSL : ℚ × ℚ → Bool × ℚ) (curInitXY : ℚ × ℚ) :
    List SpeedPoint :=
  match lastFrame with
  | none => []
  | some lf =>
    match lf.driveRefLineInfo with
    | none => []
    | some lrli =>
      if ¬ isStartFrom then []
      else if lrli.speedVector.isEmpty then []
      else
        let last_sl_s := (xyToSL lf.lastInitXY).2
        let sl_s := (xyToSL curInitXY).2
        let s_diff := sl_s - last_sl_s
        initProfileLoop s_diff lrli.speedVector false 0 0

/-- The speed-seeding step of `PlanOnReferenceLine` (navi_planner.cc:137-144):
    warm start, falling back to the hot start when it is empty. -/
def seedSpeedProfile (lastFrame : Option LastFrame) (isStartFrom : Bool)
    (xyToSL : ℚ × ℚ → Bool × ℚ) (curInitXY : ℚ × ℚ)
    (init_v upperSpeedLimit timeLength minInterval : ℚ) : List SpeedPoint :=
  let speed_profile :=
    GenerateInitSpeedProfile lastFrame isStartFrom xyToSL curInitXY
  if speed_profile.isEmpty then
    GenerateSpeedHotStart init_v upperSpeedLimit timeLength minInterval
  else speed_profile

/-! ### `NaviPlanner::GenerateFallbackPathProfile` (navi_planner.cc:351-378)

```
double adc_s = reference_line_info->AdcSlBoundary().end_s();
const double max_s = 150.0;  const double unit_s = 1.0;
const auto& adc_ref_point = … GetReferencePoint(adc_s);
const double dx = adc_point.path_point().x() - adc_ref_point.x();
const double dy = adc_point.path_point().y() - adc_ref_point.y();
for (double s = adc_s; s < max_s; s += unit_s) {
  const auto& ref_point = … GetReferencePoint(adc_s);   // sic: adc_s, not s
  path_point = MakePathPoint(ref_point.x() + dx, ref_point.y() + dy, 0.0,
      ref_point.heading(), ref_point.kappa(), ref_point.dkappa(), 0.0);
  path_point.set_s(s);
}
```
The reference line is the external `GetReferencePoint`; the vehicle's
planning point supplies `(x, y)`.  Note the loop body queries the reference
line at `adc_s` — the loop variable `s` is used only for `set_s`. -/

def GenerateFallbackPathProfile (getReferencePoint : ℚ → ReferencePoint)
    (adcXY : ℚ × ℚ) (adc_s : ℚ) : List PathPoint :=
  let adc_ref_point := getReferencePoint adc_s
  let dx := adcXY.1 - adc_ref_point.x
  let dy := adcXY.2 - adc_ref_point.y
  whileMapC (fun s => decide (s < 150))
    (fun s =>
      let ref_point := getReferencePoint adc_s
      { x := ref_point.x + dx, y := ref_point.y + dy, z := 0,
        theta := ref_point.heading, kappa := ref_point.kappa,
        dkappa := ref_point.dkappa, ddkappa := 0, s := s })
    1 (ratCeilNat (150 - adc_s) + 1) adc_s

/-! ### Task pipeline and debug recording (navi_planner.cc:146-164, 246-263)

A decision task is an external collaborator; one run of it is modelled by
its name and the `Status` its `Execute` returns.  Wall-clock latency is
external as well and is modelled by a measurement function from task name to
elapsed milliseconds. -/

structure TaskOutcome where
  name : String
  result : Status
deriving DecidableEq

/-- `NaviPlanner::RecordDebugInfo`: appends one latency record, gated by
    `FLAGS_enable_record_debug`. -/
def recordDebugInfo (enableRecordDebug : Bool) (name : String)
    (time_diff_ms : ℚ) : List (String × ℚ) :=
  if enableRecordDebug then [(name, time_diff_ms)] else []

/-- The task loop of `PlanOnReferenceLine`: fail-fast; the `break` on a
    failing task happens before the elapsed time is taken and recorded, so a
    failing task contributes no latency record.  Returns the final `ret`
    and the concatenated latency records. -/
def taskLoop (enableRecordDebug : Bool) (elapsedMs : String → ℚ) :
    List TaskOutcome → Status × List (String × ℚ)
  | [] => (Status.ok, [])
  | tk :: rest =>
    if tk.result.isOk then
      let stats := recordDebugInfo enableRecordDebug tk.name (elapsedMs tk.name)
      let next := taskLoop enableRecordDebug elapsedMs rest
      (next.1, stats ++ next.2)
    else (tk.result, [])

/-! ### `NaviPlanner::PlanOnReferenceLine` (navi_planner.cc:130-216)

The decision tasks, the obstacles and their decisions, the
path/speed-emptiness they leave behind, `CombinePathAndSpeedProfile` and the
`ConstraintChecker` oracle are all external; a `Scenario` records their
observable behaviour for one candidate, and the embedding reproduces the
source's control flow and cost bookkeeping over it. -/

structure ObstacleInfo where
  isVirtual : Bool
  isStatic : Bool
  hasStopDecision : Bool
deriving DecidableEq

/-- The static-obstacle loop of `PlanOnReferenceLine` adds
    `kRefrenceLineStaticObsCost` once per non-virtual static obstacle whose
    longitudinal decision is a stop; this counts those obstacles. -/
def countStaticStopObstacles (obstacles : List ObstacleInfo) : ℕ :=
  (obstacles.filter
    (fun ob => !ob.isVirtual && ob.isStatic && ob.hasStopDecision)).length

structure Scenario where
  isChangeLanePath : Bool
  tasks : List TaskOutcome
  pathEmptyAfterTasks : Bool
  speedEmptyAfterTasks : Bool
  obstacles : List ObstacleInfo
  combineOk : Bool
  enableTrajectoryCheck : Bool
  trajectoryValid : Bool

def aggregateFailMsg : String := "Fail to aggregate planning trajectory."

def validateFailMsg : String := "Failed to validate current planning trajectory."

/-- The observable result of `PlanOnReferenceLine` for one candidate: the
    returned status, the cost accumulated on the candidate by `AddCost`, the
    drivable flag, and the recorded latency statistics. -/
structure PlanResult where
  status : Status
  cost : ℚ
  drivable : Bool
  latencyStats : List (String × ℚ)
deriving DecidableEq

def PlanOnReferenceLine (sc : Scenario) (elapsedMs : String → ℚ)
    (enableRecordDebug : Bool) : PlanResult :=
  let cost₀ : ℚ := if !sc.isChangeLanePath then kStraightForwardLineCost else 0
  let tr := taskLoop enableRecordDebug elapsedMs sc.tasks
  let cost₁ := cost₀ +
    (if sc.pathEmptyAfterTasks then kPathOptimizationFallbackClost else 0)
  let cost₂ := cost₁ +
    (if !tr.1.isOk || sc.speedEmptyAfterTasks then
      kSpeedOptimizationFallbackClost else 0)
  if !sc.combineOk then
    { status := Status.error aggregateFailMsg, cost := cost₂,
      drivable := false, latencyStats := tr.2 }
  else
    let cost₃ := cost₂ +
      kRefrenceLineStaticObsCost * countStaticStopObstacles sc.obstacles
    if sc.enableTrajectoryCheck && !sc.trajectoryValid then
      { status := Status.error validateFailMsg, cost := cost₃,
        drivable := false, latencyStats := tr.2 }
    else
      { status := Status.ok, cost := cost₃, drivable := true,
        latencyStats := tr.2 }

/-! ### `NaviPlanner::Plan` (navi_planner.cc:96-128)

The per-candidate work is `PlanOnReferenceLine`; for the orchestration claim
it is abstracted as a function from the candidate and the priority cost the
loop assigns (0 for the first candidate, `FLAGS_cost_non_priority_reference_line`
for every other) to the per-line status. -/

def planFailMsg : String := "Failed to plan on any reference line."

def planLoop (costNonPriority : ℚ) (planOnRef : α → ℚ → Status) :
    List α → ℕ → List Status
  | [], _ => []
  | rli :: rest, index =>
    let priorityCost : ℚ := if index ≠ 0 then costNonPriority else 0
    planOnRef rli priorityCost ::
      planLoop costNonPriority planOnRef rest (index + 1)

def successLineCount (statuses : List Status) : ℕ :=
  (statuses.filter (fun st => st.isOk)).length

def Plan (costNonPriority : ℚ) (planOnRef : α → ℚ → Status)
    (refLines : List α) : Status :=
  if 0 < successLineCount (planLoop costNonPriority planOnRef refLines 0) then
    Status.ok
  else Status.error planFailMsg

/-! ### Spec-side formulation of the polynomial stop-profile search

These definitions follow the words of the specification (claim C4 and spec
section 4.5/8) and are compared with the source embedding
`GenerateStopProfileFromPolynomial` above. -/

/-- Number of instants of `t0, t0+step, …` that are `≤ lim` (positive
    `step`). -/
def leCount (t0 step lim : ℚ) : ℕ :=
  if t0 ≤ lim then (⌊(lim - t0) / step⌋).toNat + 1 else 0

/-- The sampling instants "t0, t0+step, … up to `lim`" (all instants of the
    arithmetic progression that are `≤ lim`). -/
def sampledTimes (t0 step lim : ℚ) : List ℚ :=
  ticks t0 step (leCount t0 step lim)

/-- Spec: candidate stopping durations "t in \x7b2.0, 2.5, …, 4.0\x7d seconds". -/
def specDurations : List ℚ := [2, 5/2, 3, 7/2, 4]

/-- Spec: candidate stopping distances "s in \x7b0.0, 1.0, …, 49.0\x7d meters". -/
def specDistances : List ℚ := (List.range 50).map (fun n : ℕ => (n : ℚ))

/-- Spec: the candidate pairs in search order — durations outer, distances
    "varying fastest (inner loop)". -/
def specPairs : List (ℚ × ℚ) :=
  specDurations.flatMap (fun t => specDistances.map (fun s => (t, s)))

/-- Spec: a curve is accepted when, "sampled at times 0.1, 0.3, 0.5, … up to
    the curve's duration", velocity is "not more negative than -1e-3" and
    acceleration is "not less than -5.0 m/s^2". -/
def specIsValidCurve (curve : QuinticPolynomialCurve1d) : Bool :=
  (sampledTimes (1/10) (1/5) curve.param).all
    (fun et => decide (-(1/1000) ≤ curve.Evaluate 1 et)
      && decide (-5 ≤ curve.Evaluate 2 et))

/-- Spec: the accepted curve is emitted "sampled at a fixed 0.02 s step". -/
def specEmitCurve (curve : QuinticPolynomialCurve1d) : List SpeedPoint :=
  (sampledTimes 0 (1/50) curve.param).map
    (fun ct =>
      { s := curve.Evaluate 0 ct, t := ct, v := curve.Evaluate 1 ct,
        a := curve.Evaluate 2 ct, da := curve.Evaluate 3 ct })

/-- The polynomial stop-profile search (Strategy A) exactly as claim C4
    words it: enumerate `specPairs` in order, build the quintic from
    `(0, v, a)` to `(s, 0, 0)` over duration `t` for each, accept the first
    valid pair and emit its curve; empty when no pair validates. -/
def stopProfileFromPolynomialSpec (init_speed init_acc : ℚ) :
    List SpeedPoint :=
  match specPairs.find?
      (fun p => specIsValidCurve (mkQuintic 0 init_speed init_acc p.2 0 0 p.1)) with
  | some p => specEmitCurve (mkQuintic 0 init_speed init_acc p.2 0 0 p.1)
  | none => []

/-! ### Helper lemmas: loop trip counts -/

lemma all_congr_local {l : List α} {f g : α → Bool}
    (h : ∀ x ∈ l, f x = g x) : l.all f = l.all g := by
  induction l with
  | nil => rfl
  | cons a l ih =>
    rw [List.all_cons, List.all_cons, h a (List.mem_cons_self a l),
      ih (fun x hx => h x (List.mem_cons_of_mem a hx))]

/-- The loop condition `x ≤ lim` holds for exactly the first
    `leCount t0 step lim` iterates. -/
lemma leCount_run (t0 step lim : ℚ) (hstep : 0 < step) :
    (∀ k : ℕ, k < leCount t0 step lim →
        decide (t0 + step * (k : ℚ) ≤ lim) = true)
    ∧ decide (t0 + step * ((leCount t0 step lim : ℕ) : ℚ) ≤ lim) = false := by
  unfold leCount
  by_cases h : t0 ≤ lim
  · rw [if_pos h]
    have hnn : (0:ℚ) ≤ (lim - t0) / step := div_nonneg (by linarith) hstep.le
    have hfl : (0:ℤ) ≤ ⌊(lim - t0) / step⌋ := Int.le_floor.mpr (by exact_mod_cast hnn)
    constructor
    · intro k hk
      rw [decide_eq_true_eq]
      have h1 : k ≤ (⌊(lim - t0) / step⌋).toNat := Nat.lt_succ_iff.mp hk
      have hk' : (k:ℤ) ≤ ⌊(lim - t0) / step⌋ := by
        rw [← Int.toNat_of_nonneg hfl]
        exact_mod_cast h1
      have h2 : (k:ℚ) ≤ (lim - t0) / step := by exact_mod_cast Int.le_floor.mp hk'
      have h3 : (k:ℚ) * step ≤ lim - t0 := (le_div_iff₀ hstep).mp h2
      linarith
    · rw [decide_eq_false_iff_not, not_le]
      have h2 : (lim - t0) / step < (⌊(lim - t0) / step⌋ : ℚ) + 1 :=
        Int.lt_floor_add_one _
      have h3 : (((⌊(lim - t0) / step⌋).toNat : ℕ) : ℚ)
          = (⌊(lim - t0) / step⌋ : ℚ) := by
        exact_mod_cast congrArg (Int.cast : ℤ → ℚ) (Int.toNat_of_nonneg hfl)
      have h4 : ((((⌊(lim - t0) / step⌋).toNat + 1 : ℕ)) : ℚ)
          = (⌊(lim - t0) / step⌋ : ℚ) + 1 := by
        rw [Nat.cast_add, Nat.cast_one, h3]
      rw [h4]
      have h5 : lim - t0 < step * ((⌊(lim - t0) / step⌋ : ℚ) + 1) := by
        have := (div_lt_iff₀ hstep).mp h2
        linarith
      linarith
  · rw [if_neg h]
    refine ⟨fun k hk => absurd hk (Nat.not_lt_zero k), ?_⟩
    rw [decide_eq_false_iff_not, not_le]
    push_cast
    linarith [not_le.mp h]

/-- The fuel `ratCeilNat (5 * lim) + 1` of `IsValidProfile` covers every
    iteration of its loop. -/
lemma leCount_valid_fuel (lim : ℚ) :
    leCount (1/10) (1/5) lim ≤ ratCeilNat (5 * lim) + 1 := by
  unfold leCount
  by_cases h : (1/10 : ℚ) ≤ lim
  · rw [if_pos h, ratCeilNat_eq]
    have h1 : (lim - 1/10) / (1/5) ≤ 5 * lim := by
      rw [div_le_iff₀ (by norm_num : (0:ℚ) < 1/5)]
      linarith
    have h2 : ⌊(lim - 1/10) / (1/5)⌋ ≤ ⌈(5 * lim : ℚ)⌉ :=
      le_trans (Int.floor_mono h1) (Int.floor_le_ceil _)
    have := Int.toNat_le_toNat h2
    omega
  · rw [if_neg h]
    omega

/-- The fuel `ratCeilNat (50 * lim) + 1` of `sampleStopCurve` covers every
    iteration of its loop. -/
lemma leCount_sample_fuel (lim : ℚ) :
    leCount 0 (1/50) lim ≤ ratCeilNat (50 * lim) + 1 := by
  unfold leCount
  by_cases h : (0 : ℚ) ≤ lim
  · rw [if_pos h, ratCeilNat_eq]
    have h1 : (lim - 0) / (1/50) ≤ 50 * lim := by
      rw [div_le_iff₀ (by norm_num : (0:ℚ) < 1/50)]
      linarith
    have h2 : ⌊(lim - 0) / (1/50)⌋ ≤ ⌈(50 * lim : ℚ)⌉ :=
      le_trans (Int.floor_mono h1) (Int.floor_le_ceil _)
    have := Int.toNat_le_toNat h2
    omega
  · rw [if_neg h]
    omega

/-! ### Helper lemmas: characterizations of the Strategy-A loops -/

lemma IsValidProfile_eq_all (curve : QuinticPolynomialCurve1d) :
    IsValidProfile curve
      = (sampledTimes (1/10) (1/5) curve.param).all
          (fun et => !(decide (curve.Evaluate 1 et < -(1/1000))
            || decide (curve.Evaluate 2 et < -5))) := by
  obtain ⟨hrun, hstop⟩ := leCount_run (1/10) (1/5) curve.param (by norm_num)
  exact whileAllC_eq_all _ _ _ (leCount (1/10) (1/5) curve.param)
    (ratCeilNat (5 * curve.param) + 1) (1/10)
    (leCount_valid_fuel curve.param) hrun hstop

lemma IsValidProfile_eq_spec (curve : QuinticPolynomialCurve1d) :
    IsValidProfile curve = specIsValidCurve curve := by
  rw [IsValidProfile_eq_all, specIsValidCurve]
  refine all_congr_local (fun et _ => ?_)
  rw [Bool.not_or]
  refine congrArg₂ _ ?_ ?_ <;>
    · rw [← decide_not]
      exact decide_eq_decide.mpr not_lt

lemma sampleStopCurve_eq_spec (curve : QuinticPolynomialCurve1d) :
    sampleStopCurve curve = specEmitCurve curve := by
  obtain ⟨hrun, hstop⟩ := leCount_run 0 (1/50) curve.param (by norm_num)
  exact whileMapC_eq_map _ _ _ (leCount 0 (1/50) curve.param)
    (ratCeilNat (50 * curve.param) + 1) 0
    (leCount_sample_fuel curve.param) hrun hstop

/-! ### Helper lemmas: `findSome?` plumbing -/

lemma findSome?_map_local (f : α → β) (g : β → Option γ) (l : List α) :
    (l.map f).findSome? g = l.findSome? (fun x => g (f x)) := by
  induction l with
  | nil => rfl
  | cons a l ih =>
    rw [List.map_cons, List.findSome?_cons, List.findSome?_cons]
    cases g (f a) <;> simp [ih]

lemma findSome?_append_local (l₁ l₂ : List α) (g : α → Option β) :
    (l₁ ++ l₂).findSome? g =
      match l₁.findSome? g with
      | some r => some r
      | none => l₂.findSome? g := by
  induction l₁ with
  | nil => rfl
  | cons a l ih =>
    rw [List.cons_append, List.findSome?_cons, List.findSome?_cons]
    cases g a <;> simp [ih]

lemma findSome?_flatMap_local (l : List α) (f : α → List β) (g : β → Option γ) :
    (l.flatMap f).findSome? g = l.findSome? (fun x => (f x).findSome? g) := by
  induction l with
  | nil => rfl
  | cons a l ih =>
    rw [List.flatMap_cons, findSome?_append_local, List.findSome?_cons]
    cases (f a).findSome? g <;> simp [ih]

lemma findSome?_guard_local (p : α → Bool) (g : α → β) (l : List α) :
    l.findSome? (fun x => if p x then some (g x) else none)
      = (l.find? p).map g := by
  induction l with
  | nil => rfl
  | cons a l ih =>
    rw [List.findSome?_cons, List.find?_cons]
    cases hp : p a <;> simp [hp, ih]

lemma ticks_eq_specDistances : ticks 0 1 50 = specDistances := by
  unfold ticks specDistances
  exact List.map_congr_left (fun k _ => by ring)

lemma ticks_eq_specDurations : ticks 2 (1/2) 5 = specDurations := by
  unfold ticks specDurations
  rw [List.range_succ, List.range_succ, List.range_succ, List.range_succ,
    List.range_succ, List.range_zero]
  norm_num

/-- The inner `s` loop is the first-match search over the spec's distance
    grid. -/
lemma polyInner_eq (init_speed init_acc t : ℚ) :
    polyInner init_speed init_acc t
      = specDistances.findSome? (fun s =>
          if IsValidProfile (mkQuintic 0 init_speed init_acc s 0 0 t) then
            some (sampleStopCurve (mkQuintic 0 init_speed init_acc s 0 0 t))
          else none) := by
  have hrun : ∀ k : ℕ, k < 50 →
      (fun s => decide (s < 50)) ((0:ℚ) + 1 * (k:ℚ)) = true := by
    intro k hk
    have hk' : (k:ℚ) < 50 := by exact_mod_cast hk
    simp only [decide_eq_true_eq]
    linarith
  have hstop : (fun s => decide (s < 50)) ((0:ℚ) + 1 * ((50:ℕ):ℚ)) = false := by
    norm_num
  rw [polyInner,
    whileFindC_eq_findSome _ _ _ 50 51 0 (by norm_num) hrun hstop,
    ticks_eq_specDistances]

/-- The outer `t` loop is the first-match search over the spec's duration
    grid. -/
lemma polyOuter_eq (init_speed init_acc : ℚ) :
    polyOuter init_speed init_acc
      = specDurations.findSome? (fun t => polyInner init_speed init_acc t) := by
  have hrun : ∀ k : ℕ, k < 5 →
      (fun t => decide (t ≤ 4)) ((2:ℚ) + 1/2 * (k:ℚ)) = true := by
    intro k hk
    interval_cases k <;> norm_num
  have hstop : (fun t => decide (t ≤ 4)) ((2:ℚ) + 1/2 * ((5:ℕ):ℚ)) = false := by
    norm_num
  rw [polyOuter,
    whileFindC_eq_findSome _ _ _ 5 6 2 (by norm_num) hrun hstop,
    ticks_eq_specDurations]

/-- Strategy A as implemented equals Strategy A as the spec words it. -/
lemma stopProfileFromPolynomial_eq_spec (init_speed init_acc : ℚ) :
    GenerateStopProfileFromPolynomial init_speed init_acc
      = stopProfileFromPolynomialSpec init_speed init_acc := by
  rw [GenerateStopProfileFromPolynomial, polyOuter_eq]
  simp only [polyInner_eq]
  have hpairs :
      specDurations.findSome? (fun t =>
        specDistances.findSome? (fun s =>
          if IsValidProfile (mkQuintic 0 init_speed init_acc s 0 0 t) then
            some (sampleStopCurve (mkQuintic 0 init_speed init_acc s 0 0 t))
          else none))
      = specPairs.findSome? (fun p =>
          if IsValidProfile (mkQuintic 0 init_speed init_acc p.2 0 0 p.1) then
            some (sampleStopCurve (mkQuintic 0 init_speed init_acc p.2 0 0 p.1))
          else none) := by
    rw [specPairs, findSome?_flatMap_local]
    simp only [findSome?_map_local]
  rw [hpairs,
    findSome?_guard_local
      (fun p => IsValidProfile (mkQuintic 0 init_speed init_acc p.2 0 0 p.1))
      (fun p => sampleStopCurve (mkQuintic 0 init_speed init_acc p.2 0 0 p.1))
      specPairs]
  simp only [IsValidProfile_eq_spec, sampleStopCurve_eq_spec]
  delta stopProfileFromPolynomialSpec
  generalize specPairs.find?
      (fun p => specIsValidCurve (mkQuintic 0 init_speed init_acc p.2 0 0 p.1)) = o
  cases o with
  | none => rfl
  | some p => rfl

/-! ### Helper lemmas: monotonicity of the generated profiles -/

/-- The first element emitted by `whileMapC`, if any, is `body` at the
    current iterate. -/
lemma whileMapC_head (cond : ℚ → Bool) (body : ℚ → α) (step : ℚ) :
    ∀ (fuel : ℕ) (x : ℚ) (p : α),
      (whileMapC cond body step fuel x).head? = some p → p = body x := by
  intro fuel x p h
  cases fuel with
  | zero => simp [whileMapC] at h
  | succ f =>
    rw [whileMapC] at h
    by_cases hc : cond x = true
    · rw [if_pos hc] at h
      simp at h
      exact h.symm
    · rw [if_neg hc] at h
      simp at h

/-- Adjacent elements emitted by `whileMapC` are `body y` and
    `body (y + step)`; if `R` always relates those, the output is an
    `R`-chain. -/
lemma whileMapC_chain (R : α → α → Prop) (cond : ℚ → Bool) (body : ℚ → α)
    (step : ℚ) (hbody : ∀ y : ℚ, R (body y) (body (y + step))) :
    ∀ (fuel : ℕ) (x : ℚ), List.Chain' R (whileMapC cond body step fuel x) := by
  intro fuel
  induction fuel with
  | zero => intro x; simp [whileMapC]
  | succ f ih =>
    intro x
    rw [whileMapC]
    by_cases hc : cond x = true
    · rw [if_pos hc, List.chain'_cons']
      refine ⟨fun y hy => ?_, ih (x + step)⟩
      rw [whileMapC_head cond body step f (x + step) y hy]
      exact hbody x
    · rw [if_neg hc]
      exact List.chain'_nil

/-- Any profile returned (as `some`) by `whileFindC` is the value of `body`
    at some iterate. -/
lemma whileFindC_some (cond : ℚ → Bool) (body : ℚ → Option α) (step : ℚ) :
    ∀ (fuel : ℕ) (x : ℚ) (r : α),
      whileFindC cond body step fuel x = some r → ∃ y, body y = some r := by
  intro fuel
  induction fuel with
  | zero => intro x r h; simp [whileFindC] at h
  | succ f ih =>
    intro x r h
    rw [whileFindC] at h
    by_cases hc : cond x = true
    · rw [if_pos hc] at h
      cases hb : body x with
      | some r₁ =>
        rw [hb] at h
        exact ⟨x, hb.trans (by simpa using h)⟩
      | none =>
        rw [hb] at h
        exact ih (x + step) r h
    · rw [if_neg hc] at h
      exact absurd h (by simp)

/-- The time stamps of a sampled stop curve strictly increase. -/
lemma sampleStopCurve_chain_t (curve : QuinticPolynomialCurve1d) :
    List.Chain' (fun p q : SpeedPoint => p.t < q.t) (sampleStopCurve curve) := by
  refine whileMapC_chain _ _ _ _ (fun y => ?_) _ _
  simp only
  linarith

/-- Strategy A only ever returns sampled stop curves, so its time stamps
    strictly increase for every input. -/
lemma stopProfileFromPolynomial_chain_t (init_speed init_acc : ℚ) :
    List.Chain' (fun p q : SpeedPoint => p.t < q.t)
      (GenerateStopProfileFromPolynomial init_speed init_acc) := by
  rw [GenerateStopProfileFromPolynomial]
  cases houter : polyOuter init_speed init_acc with
  | none => simp [Option.getD]
  | some sd =>
    obtain ⟨t, ht⟩ := whileFindC_some _ _ _ _ _ _ houter
    obtain ⟨s, hs⟩ := whileFindC_some _ _ _ _ _ _ ht
    simp only at hs
    rw [Option.getD]
    by_cases hv : IsValidProfile (mkQuintic 0 init_speed init_acc s 0 0 t)
    · rw [if_pos hv] at hs
      cases hs
      exact sampleStopCurve_chain_t _
    · rw [if_neg hv] at hs
      cases hs

/-- Heads of the closed-form stop-profile loop: the first emitted point
    carries the current time and an arc length at least `pre_s`. -/
lemma stopProfileLoop_head
    (slowdownDec init_speed first_point_acc t_mid s_mid v_mid : ℚ) :
    ∀ (fuel : ℕ) (t pre_s : ℚ) (p : SpeedPoint),
      (stopProfileLoop slowdownDec init_speed first_point_acc t_mid s_mid v_mid
          fuel t pre_s).head? = some p →
        p.t = t ∧ pre_s ≤ p.s := by
  intro fuel t pre_s p h
  cases fuel with
  | zero => simp [stopProfileLoop] at h
  | succ f =>
    rw [stopProfileLoop] at h
    by_cases h3 : t < 3
    · rw [if_pos h3] at h
      by_cases hmid : t ≤ t_mid
      · rw [if_pos hmid] at h
        simp only [List.head?_cons, Option.some_inj] at h
        subst h
        exact ⟨rfl, le_max_left _ _⟩
      · rw [if_neg hmid] at h
        simp only [List.head?_cons, Option.some_inj] at h
        subst h
        exact ⟨rfl, le_max_left _ _⟩
    · rw [if_neg h3] at h
      simp at h

/-- The closed-form stop-profile loop emits strictly increasing times and
    non-decreasing arc lengths, for every fuel, start time and `pre_s`. -/
lemma stopProfileLoop_chain
    (slowdownDec init_speed first_point_acc t_mid s_mid v_mid : ℚ) :
    ∀ (fuel : ℕ) (t pre_s : ℚ),
      List.Chain' (fun p q : SpeedPoint => p.t < q.t)
        (stopProfileLoop slowdownDec init_speed first_point_acc t_mid s_mid
          v_mid fuel t pre_s)
      ∧ List.Chain' (fun p q : SpeedPoint => p.s ≤ q.s)
        (stopProfileLoop slowdownDec init_speed first_point_acc t_mid s_mid
          v_mid fuel t pre_s) := by
  intro fuel
  induction fuel with
  | zero => intro t pre_s; constructor <;> simp [stopProfileLoop]
  | succ f ih =>
    intro t pre_s
    rw [stopProfileLoop]
    by_cases h3 : t < 3
    · rw [if_pos h3]
      by_cases hmid : t ≤ t_mid
      · rw [if_pos hmid]
        constructor
        · rw [List.chain'_cons']
          refine ⟨fun y hy => ?_, (ih (t + 1/50) _).1⟩
          rw [(stopProfileLoop_head _ _ _ _ _ _ f (t + 1/50) _ y hy).1]
          simp only
          linarith
        · rw [List.chain'_cons']
          refine ⟨fun y hy => ?_, (ih (t + 1/50) _).2⟩
          exact (stopProfileLoop_head _ _ _ _ _ _ f (t + 1/50) _ y hy).2
      · rw [if_neg hmid]
        constructor
        · rw [List.chain'_cons']
          refine ⟨fun y hy => ?_, (ih (t + 1/50) _).1⟩
          rw [(stopProfileLoop_head _ _ _ _ _ _ f (t + 1/50) _ y hy).1]
          simp only
          linarith
        · rw [List.chain'_cons']
          refine ⟨fun y hy => ?_, (ih (t + 1/50) _).2⟩
          exact (stopProfileLoop_head _ _ _ _ _ _ f (t + 1/50) _ y hy).2
    · rw [if_neg h3]
      constructor <;> exact List.chain'_nil

/-- Heads of the hot-start loop. -/
lemma hotStartLoop_head (timeLength v minInterval : ℚ) :
    ∀ (fuel : ℕ) (t s : ℚ) (p : SpeedPoint),
      (hotStartLoop timeLength v minInterval fuel t s).head? = some p →
        p.t = t ∧ p.s = s := by
  intro fuel t s p h
  cases fuel with
  | zero => simp [hotStartLoop] at h
  | succ f =>
    rw [hotStartLoop] at h
    by_cases hc : t < timeLength
    · rw [if_pos hc] at h
      simp only [List.head?_cons, Option.some_inj] at h
      subst h
      exact ⟨rfl, rfl⟩
    · rw [if_neg hc] at h
      simp at h

/-- The hot-start loop emits strictly increasing times (positive sampling
    interval) and non-decreasing arc lengths (non-negative seed speed). -/
lemma hotStartLoop_chain (timeLength v minInterval : ℚ)
    (hdt : 0 < minInterval) (hv : 0 ≤ v) :
    ∀ (fuel : ℕ) (t s : ℚ),
      List.Chain' (fun p q : SpeedPoint => p.t < q.t)
        (hotStartLoop timeLength v minInterval fuel t s)
      ∧ List.Chain' (fun p q : SpeedPoint => p.s ≤ q.s)
        (hotStartLoop timeLength v minInterval fuel t s) := by
  intro fuel
  induction fuel with
  | zero => intro t s; constructor <;> simp [hotStartLoop]
  | succ f ih =>
    intro t s
    rw [hotStartLoop]
    by_cases hc : t < timeLength
    · rw [if_pos hc]
      constructor
      · rw [List.chain'_cons']
        refine ⟨fun y hy => ?_, (ih (t + minInterval) _).1⟩
        rw [(hotStartLoop_head _ _ _ f _ _ y hy).1]
        simp only
        linarith
      · rw [List.chain'_cons']
        refine ⟨fun y hy => ?_, (ih (t + minInterval) _).2⟩
        rw [(hotStartLoop_head _ _ _ f _ _ y hy).2]
        simp only
        nlinarith
    · rw [if_neg hc]
      constructor <;> exact List.chain'_nil

/-! ### Helper lemmas: the warm-start re-basing loop -/

/-- Once the origin is fixed (`is_updated_start = true`), the loop is a
    filter of the remaining samples re-based by the origin. -/
lemma initProfileLoop_true_eq (s_diff start_s start_t : ℚ) :
    ∀ l : List SpeedPoint,
      initProfileLoop s_diff l true start_s start_t
        = (l.filter (fun sp => !decide (sp.s < s_diff))).map
            (fun sp =>
              { s := sp.s - start_s, t := sp.t - start_t, v := sp.v,
                a := sp.a, da := sp.da })
  | [] => rfl
  | sp :: rest => by
    rw [initProfileLoop, List.filter_cons]
    by_cases hc : sp.s < s_diff
    · rw [if_pos hc, if_neg (by simp [hc])]
      exact initProfileLoop_true_eq s_diff start_s start_t rest
    · rw [if_neg hc]
      simp [hc, initProfileLoop_true_eq s_diff start_s start_t rest]

/-- Unfolding of the loop at a kept sample. -/
lemma initProfileLoop_cons_keep (s_diff : ℚ) (sp : SpeedPoint)
    (rest : List SpeedPoint) (b : Bool) (ss st : ℚ) (h : ¬ sp.s < s_diff) :
    initProfileLoop s_diff (sp :: rest) b ss st
      = { s := sp.s - (if b then ss else sp.s),
          t := sp.t - (if b then st else sp.t),
          v := sp.v, a := sp.a, da := sp.da } ::
        initProfileLoop s_diff rest true (if b then ss else sp.s)
          (if b then st else sp.t) := by
  rw [initProfileLoop, if_neg h]

/-- If the computed advance offset exceeds every retained arc length, the
    re-basing loop emits nothing. -/
lemma initProfileLoop_all_skipped (s_diff : ℚ) :
    ∀ l : List SpeedPoint, (∀ p ∈ l, p.s < s_diff) →
      ∀ (b : Bool) (ss st : ℚ), initProfileLoop s_diff l b ss st = []
  | [], _, _, _, _ => rfl
  | sp :: rest, h, b, ss, st => by
    rw [initProfileLoop, if_pos (h sp (List.mem_cons_self sp rest))]
    exact initProfileLoop_all_skipped s_diff rest
      (fun p hp => h p (List.mem_cons_of_mem sp hp)) b ss st

/-- Re-basing and filtering preserve strictly increasing time stamps. -/
lemma initProfileLoop_pairwise_t (s_diff : ℚ) :
    ∀ l : List SpeedPoint,
      List.Pairwise (fun p q : SpeedPoint => p.t < q.t) l →
      ∀ (b : Bool) (ss st : ℚ),
        List.Pairwise (fun p q : SpeedPoint => p.t < q.t)
          (initProfileLoop s_diff l b ss st)
  | [], _, _, _, _ => List.Pairwise.nil
  | sp :: rest, h, b, ss, st => by
    obtain ⟨hrel, htail⟩ := List.pairwise_cons.mp h
    by_cases hc : sp.s < s_diff
    · rw [initProfileLoop, if_pos hc]
      exact initProfileLoop_pairwise_t s_diff rest htail b ss st
    · rw [initProfileLoop_cons_keep s_diff sp rest b ss st hc,
        List.pairwise_cons]
      refine ⟨fun q' hq' => ?_,
        initProfileLoop_pairwise_t s_diff rest htail true _ _⟩
      rw [initProfileLoop_true_eq] at hq'
      obtain ⟨q, hqmem, rfl⟩ := List.mem_map.mp hq'
      have hq : q ∈ rest := (List.mem_filter.mp hqmem).1
      simp only
      have := hrel q hq
      linarith

/-- Re-basing and filtering preserve non-decreasing arc lengths. -/
lemma initProfileLoop_pairwise_s (s_diff : ℚ) :
    ∀ l : List SpeedPoint,
      List.Pairwise (fun p q : SpeedPoint => p.s ≤ q.s) l →
      ∀ (b : Bool) (ss st : ℚ),
        List.Pairwise (fun p q : SpeedPoint => p.s ≤ q.s)
          (initProfileLoop s_diff l b ss st)
  | [], _, _, _, _ => List.Pairwise.nil
  | sp :: rest, h, b, ss, st => by
    obtain ⟨hrel, htail⟩ := List.pairwise_cons.mp h
    by_cases hc : sp.s < s_diff
    · rw [initProfileLoop, if_pos hc]
      exact initProfileLoop_pairwise_s s_diff rest htail b ss st
    · rw [initProfileLoop_cons_keep s_diff sp rest b ss st hc,
        List.pairwise_cons]
      refine ⟨fun q' hq' => ?_,
        initProfileLoop_pairwise_s s_diff rest htail true _ _⟩
      rw [initProfileLoop_true_eq] at hq'
      obtain ⟨q, hqmem, rfl⟩ := List.mem_map.mp hq'
      have hq : q ∈ rest := (List.mem_filter.mp hqmem).1
      simp only
      have := hrel q hq
      linarith

/-! ### Helper lemmas: the fallback path loop -/

/-- The fallback path is the (possibly empty) list of points indexed by the
    arc lengths `adc_s, adc_s + 1, …` strictly below the absolute bound
    `150`. -/
lemma fallbackPath_eq (getReferencePoint : ℚ → ReferencePoint)
    (adcXY : ℚ × ℚ) (adc_s : ℚ) :
    GenerateFallbackPathProfile getReferencePoint adcXY adc_s
      = (ticks adc_s 1 (ratCeilNat (150 - adc_s))).map
          (fun s =>
            { x := (getReferencePoint adc_s).x
                + (adcXY.1 - (getReferencePoint adc_s).x),
              y := (getReferencePoint adc_s).y
                + (adcXY.2 - (getReferencePoint adc_s).y),
              z := 0, theta := (getReferencePoint adc_s).heading,
              kappa := (getReferencePoint adc_s).kappa,
              dkappa := (getReferencePoint adc_s).dkappa,
              ddkappa := 0, s := s }) := by
  have hrun : ∀ k : ℕ, k < ratCeilNat (150 - adc_s) →
      (fun s => decide (s < 150)) (adc_s + 1 * (k:ℚ)) = true := by
    intro k hk
    rw [ratCeilNat_eq] at hk
    have h1 : (k:ℤ) < ⌈(150 - adc_s : ℚ)⌉ := Int.lt_toNat.mp hk
    have h2 : (k:ℚ) < 150 - adc_s := by exact_mod_cast Int.lt_ceil.mp h1
    simp only [decide_eq_true_eq]
    linarith
  have hstop : (fun s => decide (s < 150))
      (adc_s + 1 * ((ratCeilNat (150 - adc_s) : ℕ) : ℚ)) = false := by
    rw [ratCeilNat_eq]
    simp only [decide_eq_false_iff_not, not_lt]
    by_cases hpos : 0 < ⌈(150 - adc_s : ℚ)⌉
    · have h1 : (((⌈(150 - adc_s : ℚ)⌉).toNat : ℤ) : ℚ)
          = ((⌈(150 - adc_s : ℚ)⌉ : ℤ) : ℚ) := by
        exact_mod_cast congrArg (Int.cast : ℤ → ℚ)
          (Int.toNat_of_nonneg hpos.le)
      have h2 : (150 - adc_s : ℚ) ≤ ⌈(150 - adc_s : ℚ)⌉ := Int.le_ceil _
      push_cast at h1
      rw [one_mul, h1]
      linarith
    · have h0 : (⌈(150 - adc_s : ℚ)⌉).toNat = 0 := by omega
      have h2 : (150 - adc_s : ℚ) ≤ ⌈(150 - adc_s : ℚ)⌉ := Int.le_ceil _
      have h3 : ((⌈(150 - adc_s : ℚ)⌉ : ℤ) : ℚ) ≤ 0 := by
        exact_mod_cast Int.not_lt.mp hpos
      rw [h0]
      push_cast
      linarith
  rw [GenerateFallbackPathProfile,
    whileMapC_eq_map _ _ _ (ratCeilNat (150 - adc_s))
      (ratCeilNat (150 - adc_s) + 1) adc_s (Nat.le_succ _) hrun hstop]

/-! ### Helper lemmas: `Plan` and the task pipeline -/

lemma planLoop_length (costNonPriority : ℚ) (planOnRef : α → ℚ → Status) :
    ∀ (l : List α) (index : ℕ),
      (planLoop costNonPriority planOnRef l index).length = l.length
  | [], _ => rfl
  | _ :: rest, index => by
    rw [planLoop, List.length_cons, List.length_cons,
      planLoop_length costNonPriority planOnRef rest (index + 1)]

lemma successLineCount_pos_iff (statuses : List Status) :
    0 < successLineCount statuses ↔ ∃ st ∈ statuses, st.isOk = true := by
  rw [successLineCount, List.length_pos_iff_ne_nil]
  constructor
  · intro h
    obtain ⟨st, hmem⟩ := List.exists_mem_of_ne_nil _ h
    exact ⟨st, (List.mem_filter.mp hmem).1, (List.mem_filter.mp hmem).2⟩
  · rintro ⟨st, hmem, hok⟩ hnil
    exact (List.filter_eq_nil_iff.mp hnil st hmem) hok

/-- Latency records of one pipeline run (with debug recording on): exactly
    the successful prefix of the task list, in order, with the measured
    elapsed time. -/
lemma taskLoop_stats (elapsedMs : String → ℚ) :
    ∀ tasks : List TaskOutcome,
      (taskLoop true elapsedMs tasks).2
        = (tasks.takeWhile (fun tk => tk.result.isOk)).map
            (fun tk => (tk.name, elapsedMs tk.name))
  | [] => rfl
  | tk :: rest => by
    rw [taskLoop, List.takeWhile_cons]
    by_cases hok : tk.result.isOk = true
    · rw [if_pos hok, if_pos hok]
      dsimp only
      rw [taskLoop_stats elapsedMs rest]
      simp [recordDebugInfo]
    · rw [if_neg hok, if_neg hok]
      rfl

/-- The tasks `Execute` is actually called on: everything up to and
    including the first failing task. -/
def executedTasks : List TaskOutcome → List TaskOutcome
  | [] => []
  | tk :: rest => if tk.result.isOk then tk :: executedTasks rest else [tk]

/-! ### Monotonicity predicates (spec section 8) -/

/-- "t is strictly increasing across consecutive samples". -/
def TimeStrictMono (l : List SpeedPoint) : Prop :=
  List.Chain' (fun p q : SpeedPoint => p.t < q.t) l

/-- "s is non-decreasing across consecutive samples". -/
def ArcNonDecreasing (l : List SpeedPoint) : Prop :=
  List.Chain' (fun p q : SpeedPoint => p.s ≤ q.s) l

instance instTransSpeedT :
    IsTrans SpeedPoint (fun p q : SpeedPoint => p.t < q.t) :=
  ⟨fun _ _ _ h1 h2 => lt_trans h1 h2⟩

instance instTransSpeedS :
    IsTrans SpeedPoint (fun p q : SpeedPoint => p.s ≤ q.s) :=
  ⟨fun _ _ _ h1 h2 => le_trans h1 h2⟩

/-! ### Wrapper lemmas for the generators -/

lemma GenerateStopProfile_chain (slowdownDec init_speed init_acc : ℚ) :
    TimeStrictMono (GenerateStopProfile slowdownDec init_speed init_acc)
    ∧ ArcNonDecreasing (GenerateStopProfile slowdownDec init_speed init_acc) := by
  unfold TimeStrictMono ArcNonDecreasing GenerateStopProfile
  exact stopProfileLoop_chain _ _ _ _ _ _ 151 0 0

lemma Clamp_nonneg (value bound2 : ℚ) (h : 0 ≤ bound2) :
    0 ≤ Clamp value 5 bound2 :=
  le_min (le_trans (by norm_num) (le_max_right value 5)) h

lemma GenerateSpeedHotStart_chain
    (init_v upperSpeedLimit timeLength minInterval : ℚ)
    (hdt : 0 < minInterval) (hupper : 0 ≤ upperSpeedLimit) :
    TimeStrictMono
      (GenerateSpeedHotStart init_v upperSpeedLimit timeLength minInterval)
    ∧ ArcNonDecreasing
      (GenerateSpeedHotStart init_v upperSpeedLimit timeLength minInterval) := by
  unfold TimeStrictMono ArcNonDecreasing GenerateSpeedHotStart
  exact hotStartLoop_chain timeLength _ minInterval hdt
    (Clamp_nonneg init_v upperSpeedLimit hupper) _ 0 0

lemma GenerateInitSpeedProfile_some_some (lrli : LastRefLineInfo)
    (lastXY : ℚ × ℚ) (xyToSL : ℚ × ℚ → Bool × ℚ) (curInitXY : ℚ × ℚ)
    (hne : lrli.speedVector ≠ []) :
    GenerateInitSpeedProfile (some ⟨some lrli, lastXY⟩) true xyToSL curInitXY
      = initProfileLoop ((xyToSL curInitXY).2 - (xyToSL lastXY).2)
          lrli.speedVector false 0 0 := by
  simp [GenerateInitSpeedProfile, List.isEmpty_iff, hne]

lemma GenerateInitSpeedProfile_chain (lastFrame : Option LastFrame)
    (isStartFrom : Bool) (xyToSL : ℚ × ℚ → Bool × ℚ) (curInitXY : ℚ × ℚ)
    (hT : ∀ lf lrli, lastFrame = some lf → lf.driveRefLineInfo = some lrli →
      TimeStrictMono lrli.speedVector ∧ ArcNonDecreasing lrli.speedVector) :
    TimeStrictMono
      (GenerateInitSpeedProfile lastFrame isStartFrom xyToSL curInitXY)
    ∧ ArcNonDecreasing
      (GenerateInitSpeedProfile lastFrame isStartFrom xyToSL curInitXY) := by
  match lastFrame with
  | none => exact ⟨List.chain'_nil, List.chain'_nil⟩
  | some lf =>
    match hrli : lf.driveRefLineInfo with
    | none =>
      rw [GenerateInitSpeedProfile, hrli]
      exact ⟨List.chain'_nil, List.chain'_nil⟩
    | some lrli =>
      obtain ⟨hTm, hSm⟩ := hT lf lrli rfl hrli
      rw [GenerateInitSpeedProfile, hrli]
      dsimp only
      by_cases hsf : isStartFrom = true
      · rw [if_neg (by simp [hsf])]
        by_cases hv : lrli.speedVector.isEmpty = true
        · rw [if_pos hv]
          exact ⟨List.chain'_nil, List.chain'_nil⟩
        · rw [if_neg hv]
          unfold TimeStrictMono at hTm ⊢
          unfold ArcNonDecreasing at hSm ⊢
          constructor
          · exact List.chain'_iff_pairwise.mpr
              (initProfileLoop_pairwise_t _ _
                (List.chain'_iff_pairwise.mp hTm) false 0 0)
          · exact List.chain'_iff_pairwise.mpr
              (initProfileLoop_pairwise_s _ _
                (List.chain'_iff_pairwise.mp hSm) false 0 0)
      · rw [if_pos (by simp [hsf])]
        exact ⟨List.chain'_nil, List.chain'_nil⟩

lemma GenerateStopProfileFromPolynomial_chain_t (init_speed init_acc : ℚ) :
    TimeStrictMono (GenerateStopProfileFromPolynomial init_speed init_acc) :=
  stopProfileFromPolynomial_chain_t init_speed init_acc

/-! ### Claim theorems -/

/-- Claim C3 (confirmed): for every pair of rational inputs (initial
    velocity, initial acceleration) — zero and negative values included —
    and for every configured slowdown deceleration, the closed-form
    jerk-limited stop-profile generator (Strategy B,
    `GenerateStopProfile`) returns a non-empty speed profile: its time loop
    always runs at least once (`0 < 3`), and both branches of the body
    append a point. -/
theorem claim_C3_strategy_B_nonempty (slowdownDec init_speed init_acc : ℚ) :
    GenerateStopProfile slowdownDec init_speed init_acc ≠ [] := by
  unfold GenerateStopProfile
  rw [show (151:ℕ) = 150 + 1 from rfl, stopProfileLoop,
    if_pos (by norm_num : (0:ℚ) < 3)]
  split <;> simp

/-- Claim C4 (confirmed): `GenerateStopProfileFromPolynomial` — for every
    input — enumerates durations t in \x7b2.0, 2.5, …, 4.0\x7d with distances
    s in \x7b0.0, 1.0, …, 49.0\x7d varying fastest, builds the quintic from
    `(0, v, a)` to `(s, 0, 0)` over duration `t`, accepts the first pair
    whose curve passes the 0.1-origin 0.2-step velocity/acceleration check,
    emits that curve at a fixed 0.02 s step, and returns the empty profile
    when no pair validates: it coincides with the spec-worded
    `stopProfileFromPolynomialSpec` on every input. -/
theorem claim_C4_strategy_A_structure (init_speed init_acc : ℚ) :
    GenerateStopProfileFromPolynomial init_speed init_acc
      = stopProfileFromPolynomialSpec init_speed init_acc :=
  stopProfileFromPolynomial_eq_spec init_speed init_acc

/-- Claim C5 (confirmed): for every cycle with at least one candidate, the
    `Plan` loop produces a per-line status for every candidate (no abort),
    succeeds iff at least one per-line planning succeeded, and when all fail
    returns the failure status carrying the non-empty diagnostic
    "Failed to plan on any reference line.". -/
theorem claim_C5_plan_orchestration {α : Type} (costNonPriority : ℚ)
    (planOnRef : α → ℚ → Status) (refLines : List α)
    (hne : refLines ≠ []) :
    (planLoop costNonPriority planOnRef refLines 0).length = refLines.length
    ∧ (Plan costNonPriority planOnRef refLines = Status.ok
        ↔ ∃ st ∈ planLoop costNonPriority planOnRef refLines 0,
            st.isOk = true)
    ∧ ((¬ ∃ st ∈ planLoop costNonPriority planOnRef refLines 0,
          st.isOk = true) →
        Plan costNonPriority planOnRef refLines = Status.error planFailMsg
        ∧ planFailMsg ≠ "") := by
  refine ⟨planLoop_length _ _ _ _, ?_, ?_⟩
  · rw [Plan]
    constructor
    · intro h
      by_cases hpos :
          0 < successLineCount (planLoop costNonPriority planOnRef refLines 0)
      · exact (successLineCount_pos_iff _).mp hpos
      · rw [if_neg hpos] at h
        exact absurd h (by simp)
    · intro hex
      rw [if_pos ((successLineCount_pos_iff _).mpr hex)]
  · intro hnone
    have hnpos :
        ¬ 0 < successLineCount (planLoop costNonPriority planOnRef refLines 0) :=
      fun hpos => hnone ((successLineCount_pos_iff _).mp hpos)
    rw [Plan, if_neg hnpos]
    exact ⟨rfl, by decide⟩

/-- Witness for claim C5 at a concrete cycle of three candidates of which
    exactly the second succeeds. -/
theorem claim_C5_plan_orchestration_witness :
    ([0, 1, 2] ≠ ([] : List ℕ))
    ∧ ((planLoop 10 (fun n _ => if n = 1 then Status.ok
          else Status.error planFailMsg) [0, 1, 2] 0).length = [0, 1, 2].length
      ∧ (Plan 10 (fun n _ => if n = 1 then Status.ok
            else Status.error planFailMsg) [0, 1, 2] = Status.ok
          ↔ ∃ st ∈ planLoop 10 (fun n _ => if n = 1 then Status.ok
              else Status.error planFailMsg) [0, 1, 2] 0, st.isOk = true)
      ∧ ((¬ ∃ st ∈ planLoop 10 (fun n _ => if n = 1 then Status.ok
            else Status.error planFailMsg) [0, 1, 2] 0, st.isOk = true) →
          Plan 10 (fun n _ => if n = 1 then Status.ok
            else Status.error planFailMsg) [0, 1, 2] = Status.error planFailMsg
          ∧ planFailMsg ≠ "")) :=
  ⟨by simp,
    claim_C5_plan_orchestration 10
      (fun n _ => if n = 1 then Status.ok else Status.error planFailMsg)
      [0, 1, 2] (by simp)⟩

/-- Claim C9 (amended): with debug recording enabled, the pipeline records an
    elapsed-time measurement exactly for each task that executed
    successfully before the first failure; the failing task itself is not
    recorded (the `break` precedes the measurement). -/
theorem claim_C9_latency_records (elapsedMs : String → ℚ)
    (tasks : List TaskOutcome) :
    (taskLoop true elapsedMs tasks).2
      = (tasks.takeWhile (fun tk => tk.result.isOk)).map
          (fun tk => (tk.name, elapsedMs tk.name)) :=
  taskLoop_stats elapsedMs tasks

def taskNameA : String := "NaviPathDecider"

def msgTaskFail : String := "navi task error"

/-- Counterexample to claim C9 as stated: with debug recording on, a single
    failing task executes but produces no latency record at all. -/
theorem claim_C9_counterexample :
    ¬ (∀ tk ∈ executedTasks [⟨taskNameA, Status.error msgTaskFail⟩],
        ∃ r ∈ (taskLoop true (fun _ => 1)
            [⟨taskNameA, Status.error msgTaskFail⟩]).2, r.1 = tk.name) := by
  intro h
  obtain ⟨r, hr, _⟩ := h ⟨taskNameA, Status.error msgTaskFail⟩
    (by simp [executedTasks, Status.isOk])
  simp [taskLoop, Status.isOk] at hr

/-- A concrete straight reference line: the point at arc length `s` is
    `(s, 0)` with zero heading and curvature. -/
def flatRefLine : ℚ → ReferencePoint := fun s =>
  { x := s, y := 0, heading := 0, kappa := 0, dkappa := 0 }

/-- Claim C2 (amended): for every vehicle arc length strictly below the
    absolute bound 150 m, the fallback path generator produces a non-empty
    path whose points sit at arc lengths `adc_s, adc_s + 1, …` strictly
    below 150 (1 m resolution); the bound is the absolute arc length 150,
    not a 150 m lookahead from the vehicle, and for `adc_s ≥ 150` the path
    is empty. -/
theorem claim_C2_fallback_path_nonempty (getReferencePoint : ℚ → ReferencePoint)
    (adcXY : ℚ × ℚ) (adc_s : ℚ) (h : adc_s < 150) :
    GenerateFallbackPathProfile getReferencePoint adcXY adc_s ≠ []
    ∧ (GenerateFallbackPathProfile getReferencePoint adcXY adc_s).map
        (fun p => p.s) = ticks adc_s 1 (ratCeilNat (150 - adc_s))
    ∧ 0 < ratCeilNat (150 - adc_s) := by
  have hpos : 0 < ⌈(150 - adc_s : ℚ)⌉ := Int.ceil_pos.mpr (by linarith)
  have hn : 0 < ratCeilNat (150 - adc_s) := by
    rw [ratCeilNat_eq]
    omega
  refine ⟨?_, ?_, hn⟩
  · rw [fallbackPath_eq]
    intro hnil
    have hlen := congrArg List.length hnil
    rw [List.length_map, ticks, List.length_map, List.length_range] at hlen
    simp only [List.length_nil] at hlen
    omega
  · rw [fallbackPath_eq, List.map_map, ticks, List.map_map]
    rfl

/-- Witness for claim C2 (amended) at `adc_s = 149`. -/
theorem claim_C2_fallback_path_nonempty_witness :
    ((149 : ℚ) < 150)
    ∧ (GenerateFallbackPathProfile flatRefLine (149, 0) 149 ≠ []
      ∧ (GenerateFallbackPathProfile flatRefLine (149, 0) 149).map
          (fun p => p.s) = ticks 149 1 (ratCeilNat (150 - 149))
      ∧ 0 < ratCeilNat (150 - 149)) :=
  ⟨by norm_num,
    claim_C2_fallback_path_nonempty flatRefLine (149, 0) 149 (by norm_num)⟩

/-- Counterexample to claim C2 as stated: at vehicle arc length 150 the
    fallback path generator returns an empty path (the loop bound
    `max_s = 150.0` is absolute), so not every vehicle state receives a
    non-empty fallback path. -/
theorem claim_C2_counterexample :
    GenerateFallbackPathProfile flatRefLine (150, 0) 150 = [] := by
  rw [fallbackPath_eq]
  have h0 : ratCeilNat (150 - 150) = 0 := by
    rw [ratCeilNat_eq]
    norm_num
  rw [h0]
  rfl

/-- Claim C1 (code bug, code evaluated at the failing input): the loop body
    of `GenerateFallbackPathProfile` queries the reference line at `adc_s`
    — the loop variable `s` is used only for `set_s` — so every generated
    point carries the constant vehicle coordinates.  On the straight line
    `flatRefLine` with the vehicle at `(3/10, -1/5)` and `adc_s = 0`, every
    point (at every arc length, 1 among them) has `x = 3/10`, while the
    reference-line point at arc length 1 translated by the constant offset
    `dx = 3/10` would have `x = 13/10 ≠ 3/10`. -/
theorem claim_C1_fallback_path_constant :
    (∀ p ∈ GenerateFallbackPathProfile flatRefLine (3/10, -(1/5)) 0,
        p.x = 3/10 ∧ p.y = -(1/5) ∧ p.theta = (flatRefLine 0).heading)
    ∧ (1:ℚ) ∈ (GenerateFallbackPathProfile flatRefLine (3/10, -(1/5)) 0).map
        (fun p => p.s)
    ∧ (flatRefLine 1).x + ((3/10 : ℚ) - (flatRefLine 0).x) ≠ 3/10 := by
  refine ⟨?_, ?_, by norm_num [flatRefLine]⟩
  · intro p hp
    rw [fallbackPath_eq] at hp
    obtain ⟨s, _, rfl⟩ := List.mem_map.mp hp
    norm_num [flatRefLine]
  · rw [fallbackPath_eq, List.map_map]
    have hn : ratCeilNat (150 - 0) = 150 := by
      rw [ratCeilNat_eq]
      norm_num
      decide
    rw [hn, ticks, List.map_map]
    refine List.mem_map.mpr ⟨1, List.mem_range.mpr (by norm_num), ?_⟩
    norm_num [flatRefLine]

/-! ### Claim C6: cost accumulation -/

def obstacleStatic : ObstacleInfo :=
  { isVirtual := false, isStatic := true, hasStopDecision := true }

def scenarioC6 : Scenario :=
  { isChangeLanePath := false
    tasks := [⟨taskNameA, Status.error msgTaskFail⟩]
    pathEmptyAfterTasks := true
    speedEmptyAfterTasks := true
    obstacles := [obstacleStatic]
    combineOk := true
    enableTrajectoryCheck := false
    trajectoryValid := true }

/-- Claim C6 (amended): for a first-in-iteration-order (priority cost 0),
    non-lane-change candidate that takes both the path fallback and the
    speed fallback and has exactly one non-virtual static obstacle with a
    stop decision, with successful trajectory assembly, the accumulated
    cost is 0 + 10.0 + 20000 + 20000 + 1000 = 41010.0. -/
theorem claim_C6_fallback_cost_total (sc : Scenario) (priorityCost : ℚ)
    (elapsedMs : String → ℚ) (enableRecordDebug : Bool)
    (hpriority : priorityCost = 0)
    (hlane : sc.isChangeLanePath = false)
    (hpath : sc.pathEmptyAfterTasks = true)
    (hspeed : (!(taskLoop enableRecordDebug elapsedMs sc.tasks).1.isOk
        || sc.speedEmptyAfterTasks) = true)
    (hobs : countStaticStopObstacles sc.obstacles = 1)
    (hcombine : sc.combineOk = true) :
    priorityCost
      + (PlanOnReferenceLine sc elapsedMs enableRecordDebug).cost = 41010 := by
  subst hpriority
  rw [PlanOnReferenceLine]
  dsimp only
  rw [hlane, hpath, hspeed, hcombine, hobs]
  norm_num [kStraightForwardLineCost, kPathOptimizationFallbackClost,
    kSpeedOptimizationFallbackClost, kRefrenceLineStaticObsCost,
    apply_ite PlanResult.cost]

/-- Witness for claim C6 (amended) at the concrete scenario `scenarioC6`. -/
theorem claim_C6_fallback_cost_total_witness :
    ((0:ℚ) = 0) ∧ scenarioC6.isChangeLanePath = false
    ∧ scenarioC6.pathEmptyAfterTasks = true
    ∧ (!(taskLoop true (fun _ => 1) scenarioC6.tasks).1.isOk
        || scenarioC6.speedEmptyAfterTasks) = true
    ∧ countStaticStopObstacles scenarioC6.obstacles = 1
    ∧ scenarioC6.combineOk = true
    ∧ (0:ℚ) + (PlanOnReferenceLine scenarioC6 (fun _ => 1) true).cost = 41010 :=
  ⟨rfl, rfl, rfl, by simp [scenarioC6, taskLoop, Status.isOk], by decide, rfl,
    claim_C6_fallback_cost_total scenarioC6 0 (fun _ => 1) true rfl rfl rfl
      (by simp [scenarioC6, taskLoop, Status.isOk]) (by decide) rfl⟩

/-- Counterexample to claim C6 as stated: the cost accumulated on the
    candidate of `scenarioC6` (with priority cost 0) is 41010, not the
    claimed total 31010 — the claim's addends are right but their sum is
    not. -/
theorem claim_C6_counterexample :
    (0:ℚ) + (PlanOnReferenceLine scenarioC6 (fun _ => 1) true).cost ≠ 31010 := by
  have h : (PlanOnReferenceLine scenarioC6 (fun _ => 1) true).cost = 41010 := by
    rw [PlanOnReferenceLine]
    norm_num [scenarioC6, taskLoop, Status.isOk, countStaticStopObstacles,
      obstacleStatic, kStraightForwardLineCost, kPathOptimizationFallbackClost,
      kSpeedOptimizationFallbackClost, kRefrenceLineStaticObsCost]
  rw [h]
  norm_num

/-! ### Claims C8 and C10: warm-start error handling -/

/-- A Cartesian-to-Frenet conversion that always fails (and leaves the
    protobuf-default `s = 0` in its out-parameter). -/
def failingConversion : ℚ × ℚ → Bool × ℚ := fun _ => (false, 0)

/-- The same conversion values with a success flag. -/
def succeedingConversion : ℚ × ℚ → Bool × ℚ := fun _ => (true, 0)

def prevProfileOnePoint : LastRefLineInfo := ⟨[⟨0, 0, 5, 0, 0⟩]⟩

/-- Claim C8 (amended): the success flag of the XY-to-SL conversion never
    influences the warm-start seeder — the failure is logged only and never
    escalated; the seeder keeps going with the conversion's output value
    (so its result need not be empty, see the counterexample). -/
theorem claim_C8_conversion_flag_ignored (lastFrame : Option LastFrame)
    (isStartFrom : Bool) (f g : ℚ × ℚ → Bool × ℚ) (curInitXY : ℚ × ℚ)
    (hfg : ∀ p, (f p).2 = (g p).2) :
    GenerateInitSpeedProfile lastFrame isStartFrom f curInitXY
      = GenerateInitSpeedProfile lastFrame isStartFrom g curInitXY := by
  match lastFrame with
  | none => rfl
  | some lf =>
    rw [GenerateInitSpeedProfile, GenerateInitSpeedProfile]
    cases hd : lf.driveRefLineInfo with
    | none => rfl
    | some lrli =>
      dsimp only
      rw [hfg lf.lastInitXY, hfg curInitXY]

/-- Witness for claim C8 (amended): a failing and a succeeding conversion
    with the same output values give the same warm-start profile. -/
theorem claim_C8_conversion_flag_ignored_witness :
    (∀ p : ℚ × ℚ, (failingConversion p).2 = (succeedingConversion p).2)
    ∧ GenerateInitSpeedProfile (some ⟨some prevProfileOnePoint, (0, 0)⟩) true
        failingConversion (0, 0)
      = GenerateInitSpeedProfile (some ⟨some prevProfileOnePoint, (0, 0)⟩) true
          succeedingConversion (0, 0) :=
  ⟨fun _ => rfl,
    claim_C8_conversion_flag_ignored _ true failingConversion
      succeedingConversion (0, 0) (fun _ => rfl)⟩

/-- Counterexample to claim C8 as stated: with both conversions failing, the
    warm-start seeder still emits a non-empty profile — it does not "yield an
    empty profile" on conversion failure. -/
theorem claim_C8_counterexample :
    (∀ p : ℚ × ℚ, (failingConversion p).1 = false)
    ∧ GenerateInitSpeedProfile (some ⟨some prevProfileOnePoint, (0, 0)⟩) true
        failingConversion (0, 0) ≠ [] := by
  refine ⟨fun _ => rfl, ?_⟩
  rw [GenerateInitSpeedProfile_some_some _ _ _ _
    (by simp [prevProfileOnePoint])]
  norm_num [prevProfileOnePoint, failingConversion, initProfileLoop]

/-- Claim C10 (confirmed): when the previous frame, a previously selected
    candidate, a non-empty previous profile and line continuation all hold
    but the advance offset (current start s minus previous start s) strictly
    exceeds the arc length of every previous sample, the warm-start seeder
    returns an empty profile and the caller seeds with the hot-start
    profile. -/
theorem claim_C10_warm_start_overrun (lrli : LastRefLineInfo)
    (lastXY curXY : ℚ × ℚ) (xyToSL : ℚ × ℚ → Bool × ℚ)
    (init_v upperSpeedLimit timeLength minInterval : ℚ)
    (hne : lrli.speedVector ≠ [])
    (hall : ∀ p ∈ lrli.speedVector,
        p.s < (xyToSL curXY).2 - (xyToSL lastXY).2) :
    GenerateInitSpeedProfile (some ⟨some lrli, lastXY⟩) true xyToSL curXY = []
    ∧ seedSpeedProfile (some ⟨some lrli, lastXY⟩) true xyToSL curXY
        init_v upperSpeedLimit timeLength minInterval
      = GenerateSpeedHotStart init_v upperSpeedLimit timeLength minInterval := by
  have hempty : GenerateInitSpeedProfile (some ⟨some lrli, lastXY⟩) true
      xyToSL curXY = [] := by
    rw [GenerateInitSpeedProfile_some_some _ _ _ _ hne]
    exact initProfileLoop_all_skipped _ _ hall false 0 0
  refine ⟨hempty, ?_⟩
  rw [seedSpeedProfile, hempty]
  simp

def prevProfileLowS : LastRefLineInfo := ⟨[⟨0, 0, 1, 0, 0⟩]⟩

/-- A conversion mapping a point to its first coordinate as `s` (so the
    vehicle advanced by 1 between the two start points used below). -/
def advanceConversion : ℚ × ℚ → Bool × ℚ := fun p => (true, p.1)

/-- Witness for claim C10 at a concrete previous profile whose single sample
    lies behind the advance offset. -/
theorem claim_C10_warm_start_overrun_witness :
    (prevProfileLowS.speedVector ≠ [])
    ∧ (∀ p ∈ prevProfileLowS.speedVector,
        p.s < (advanceConversion (1, 0)).2 - (advanceConversion (0, 0)).2)
    ∧ GenerateInitSpeedProfile (some ⟨some prevProfileLowS, (0, 0)⟩) true
        advanceConversion (1, 0) = []
    ∧ seedSpeedProfile (some ⟨some prevProfileLowS, (0, 0)⟩) true
        advanceConversion (1, 0) 0 20 1 (1/10)
      = GenerateSpeedHotStart 0 20 1 (1/10) := by
  have h1 : prevProfileLowS.speedVector ≠ [] := by simp [prevProfileLowS]
  have h2 : ∀ p ∈ prevProfileLowS.speedVector,
      p.s < (advanceConversion (1, 0)).2 - (advanceConversion (0, 0)).2 := by
    intro p hp
    simp only [prevProfileLowS, List.mem_singleton] at hp
    subst hp
    norm_num [advanceConversion]
  obtain ⟨ha, hb⟩ := claim_C10_warm_start_overrun prevProfileLowS (0, 0) (1, 0)
    advanceConversion 0 20 1 (1/10) h1 h2
  exact ⟨h1, h2, ha, hb⟩

/-! ### Claim C7: monotonicity of all generated speed profiles -/

/-- Claim C7 (amended): every speed profile generated by this core has
    strictly increasing time stamps across consecutive samples; arc length
    is non-decreasing for the warm-start re-basing (given the invariant on
    the previous cycle's profile), for the constant-velocity hot start
    (positive sampling interval, non-negative speed limit) and for the
    closed-form Strategy B (guard-floored); Strategy A guarantees strictly
    increasing time stamps but not non-decreasing arc length (see the
    counterexample). -/
theorem claim_C7_profile_monotonicity
    (slowdownDec init_speed init_acc init_v upperSpeedLimit timeLength
      minInterval : ℚ)
    (lastFrame : Option LastFrame) (isStartFrom : Bool)
    (xyToSL : ℚ × ℚ → Bool × ℚ) (curInitXY : ℚ × ℚ)
    (hdt : 0 < minInterval) (hupper : 0 ≤ upperSpeedLimit)
    (hprev : ∀ lf lrli, lastFrame = some lf →
      lf.driveRefLineInfo = some lrli →
      TimeStrictMono lrli.speedVector ∧ ArcNonDecreasing lrli.speedVector) :
    (TimeStrictMono
        (GenerateSpeedHotStart init_v upperSpeedLimit timeLength minInterval)
      ∧ ArcNonDecreasing
        (GenerateSpeedHotStart init_v upperSpeedLimit timeLength minInterval))
    ∧ (TimeStrictMono (GenerateStopProfile slowdownDec init_speed init_acc)
      ∧ ArcNonDecreasing (GenerateStopProfile slowdownDec init_speed init_acc))
    ∧ (TimeStrictMono
        (GenerateInitSpeedProfile lastFrame isStartFrom xyToSL curInitXY)
      ∧ ArcNonDecreasing
        (GenerateInitSpeedProfile lastFrame isStartFrom xyToSL curInitXY))
    ∧ TimeStrictMono (GenerateStopProfileFromPolynomial init_speed init_acc) :=
  ⟨GenerateSpeedHotStart_chain _ _ _ _ hdt hupper,
    GenerateStopProfile_chain _ _ _,
    GenerateInitSpeedProfile_chain _ _ _ _ hprev,
    GenerateStopProfileFromPolynomial_chain_t _ _⟩

/-- Witness for claim C7 (amended) at concrete configuration values and a
    concrete previous cycle. -/
theorem claim_C7_profile_monotonicity_witness :
    ((0:ℚ) < 1/10) ∧ ((0:ℚ) ≤ 20)
    ∧ ((TimeStrictMono (GenerateSpeedHotStart 0 20 1 (1/10))
        ∧ ArcNonDecreasing (GenerateSpeedHotStart 0 20 1 (1/10)))
      ∧ (TimeStrictMono (GenerateStopProfile (-4) 0 0)
        ∧ ArcNonDecreasing (GenerateStopProfile (-4) 0 0))
      ∧ (TimeStrictMono (GenerateInitSpeedProfile
            (some ⟨some prevProfileLowS, (0, 0)⟩) true advanceConversion (1, 0))
        ∧ ArcNonDecreasing (GenerateInitSpeedProfile
            (some ⟨some prevProfileLowS, (0, 0)⟩) true advanceConversion (1, 0)))
      ∧ TimeStrictMono (GenerateStopProfileFromPolynomial 0 0)) := by
  refine ⟨by norm_num, by norm_num, ?_⟩
  refine claim_C7_profile_monotonicity (-4) 0 0 0 20 1 (1/10)
    (some ⟨some prevProfileLowS, (0, 0)⟩) true advanceConversion (1, 0)
    (by norm_num) (by norm_num) ?_
  intro lf lrli h1 h2
  cases h1
  cases h2
  refine ⟨?_, ?_⟩ <;> simp [prevProfileLowS, TimeStrictMono, ArcNonDecreasing]

/-! #### Strategy A can emit a decreasing arc length

With `init_speed = -1/2000` (a slightly rolling-back vehicle) and
`init_acc = 0`, the very first candidate pair `(t, s) = (2, 0)` already
passes `IsValidProfile` — the validity check only samples `t = 0.1, 0.3, …`
and only requires `v ≥ -1e-3` — yet the emitted curve starts with negative
velocity, so its arc length decreases between the first two 0.02 s
samples. -/

lemma whileFindC_first (cond : ℚ → Bool) (body : ℚ → Option α) (step : ℚ)
    (fuel : ℕ) (x : ℚ) (r : α) (h1 : cond x = true) (hb : body x = some r) :
    whileFindC cond body step (fuel + 1) x = some r := by
  rw [whileFindC, if_pos h1, hb]

lemma whileMapC_cons (cond : ℚ → Bool) (body : ℚ → α) (step : ℚ)
    (fuel : ℕ) (x : ℚ) (h1 : cond x = true) :
    whileMapC cond body step (fuel + 1) x
      = body x :: whileMapC cond body step fuel (x + step) := by
  rw [whileMapC, if_pos h1]

lemma curveC7_eq :
    mkQuintic 0 (-(1/2000)) 0 0 0 0 2
      = { c0 := 0, c1 := -(1/2000), c2 := 0, c3 := 3/4000, c4 := -(1/2000),
          c5 := 3/32000, param := 2 } := by
  rw [mkQuintic]
  norm_num [QuinticPolynomialCurve1d.mk.injEq]

lemma validC7 : IsValidProfile (mkQuintic 0 (-(1/2000)) 0 0 0 0 2) = true := by
  rw [curveC7_eq, IsValidProfile]
  simp only [QuinticPolynomialCurve1d.ParamLength]
  rw [show ratCeilNat ((5:ℚ) * 2) + 1 = 11 from by
    rw [ratCeilNat_eq]; norm_num; decide]
  norm_num [whileAllC, QuinticPolynomialCurve1d.Evaluate]

lemma polyFirstCandidate (init_speed init_acc : ℚ)
    (hvalid : IsValidProfile (mkQuintic 0 init_speed init_acc 0 0 0 2) = true) :
    GenerateStopProfileFromPolynomial init_speed init_acc
      = sampleStopCurve (mkQuintic 0 init_speed init_acc 0 0 0 2) := by
  have hinner : polyInner init_speed init_acc 2
      = some (sampleStopCurve (mkQuintic 0 init_speed init_acc 0 0 0 2)) := by
    rw [polyInner, show (51:ℕ) = 50 + 1 from rfl]
    refine whileFindC_first _ _ _ _ _ _ (by norm_num) ?_
    simp [hvalid]
  rw [GenerateStopProfileFromPolynomial, polyOuter,
    show (6:ℕ) = 5 + 1 from rfl,
    whileFindC_first _ _ _ _ _ _ (by norm_num) hinner]
  rfl

/-- Counterexample to claim C7 as stated: the profile Strategy A emits for
    `init_speed = -1/2000, init_acc = 0` has a strictly decreasing arc
    length between its first two samples. -/
theorem claim_C7_counterexample :
    ¬ ArcNonDecreasing (GenerateStopProfileFromPolynomial (-(1/2000)) 0) := by
  rw [polyFirstCandidate (-(1/2000)) 0 validC7, curveC7_eq, sampleStopCurve]
  simp only [QuinticPolynomialCurve1d.ParamLength]
  rw [show ratCeilNat ((50:ℚ) * 2) + 1 = 101 from by
      rw [ratCeilNat_eq]; norm_num; decide,
    show (101:ℕ) = 99 + 1 + 1 from rfl,
    whileMapC_cons _ _ _ _ _ (by norm_num),
    whileMapC_cons _ _ _ _ _ (by norm_num)]
  unfold ArcNonDecreasing
  intro h
  have h1 := (List.chain'_cons.mp h).1
  norm_num [QuinticPolynomialCurve1d.Evaluate] at h1

end NaviPlanner
